import Mathlib

/-!
Shallow embedding of the FreshMart server's order, cart, product and review
handlers, translated from:
  - src/server/src/controllers/orderController.ts  (placeOrder, updateOrderStatus)
  - src/unnamed/part_013                            (cartController: getCart, addToCart)
  - src/unnamed/part_016                            (productController: getProducts,
                                                     getProductById, addReview)
  - src/server/src/index.ts                         (socket room names joined by sessions)
  - src/server/prisma/migrations/..._init_freshmart_db/migration.sql (schema invariants)

The database is modelled as lists of rows; each Express handler becomes a pure
function from the request data and the database to a response
(`Except ApiError α`), the post-state database, and the list of socket.io
emissions it performs.  Error paths return the input database unchanged exactly
where the source returns before performing any write.  Prisma's `$transaction`
block is modelled as the single combined state update it commits.

Numeric conventions: `price` (Postgres DECIMAL, used via `.toNumber()`) is a
rational; `stock`, `quantity` and `rating` (Postgres INTEGER, constrained
non-negative by the zod schemas `stock: int().min(0)`, `quantity: int().min(1)`,
`rating: int().min(1).max(5)`) are naturals.  Every decrement in the modelled
code paths is guarded by a sufficient-stock check, so natural subtraction
agrees with integer subtraction there.  The request bodies are modelled after
zod parsing has typed them; zod checks that are value checks (minimum lengths,
ranges) are kept explicit, while type-level failures (non-string, non-integer,
non-enum JSON) lie outside the model.
-/

deriving instance DecidableEq for Except

namespace FreshMart

/-- Prisma enum `Role` (migration.sql / @prisma/client). -/
inductive Role where
  | ADMIN
  | VENDOR
  | CUSTOMER
deriving DecidableEq, Repr

/-- Prisma enum `Status` (vendor-profile and product moderation status). -/
inductive Status where
  | PENDING
  | APPROVED
  | REJECTED
  | INACTIVE
deriving DecidableEq, Repr

/-- Prisma enum `OrderStatus`. -/
inductive OrderStatus where
  | PENDING
  | PROCESSING
  | SHIPPED
  | DELIVERED
  | CANCELLED
deriving DecidableEq, Repr

/-- The string form of an `OrderStatus`, as interpolated into messages. -/
def OrderStatus.str : OrderStatus → String
  | .PENDING => "PENDING"
  | .PROCESSING => "PROCESSING"
  | .SHIPPED => "SHIPPED"
  | .DELIVERED => "DELIVERED"
  | .CANCELLED => "CANCELLED"

/-- The `Product` row: the columns the modelled handlers read or write. -/
structure Product where
  id : String
  vendorId : String
  categoryId : String
  name : String
  price : Rat
  stock : Nat
  status : Status
  createdAt : Nat
deriving DecidableEq, Repr

/-- The `Cart` row; unique index on (`customerId`, `productId`). -/
structure CartLine where
  customerId : String
  productId : String
  quantity : Nat
deriving DecidableEq, Repr

/-- The `Order` row. -/
structure OrderRow where
  id : String
  customerId : String
  totalAmount : Rat
  status : OrderStatus
  paymentStatus : String
  shippingAddress : String
  contactPhone : String
deriving DecidableEq, Repr

/-- The `OrderItem` row. -/
structure OrderItemRow where
  orderId : String
  productId : String
  quantity : Nat
  priceAtOrder : Rat
deriving DecidableEq, Repr

/-- The `Payment` row. -/
structure PaymentRow where
  orderId : String
  amount : Rat
  paymentMethod : String
  status : String
  transactionId : String
deriving DecidableEq, Repr

/-- The `VendorProfile` row; unique index on `userId`. -/
structure VendorProfileRow where
  id : String
  userId : String
  status : Status
deriving DecidableEq, Repr

/-- The `Review` row; unique index on (`productId`, `customerId`). -/
structure ReviewRow where
  productId : String
  customerId : String
  rating : Nat
  comment : Option String
deriving DecidableEq, Repr

/-- The `req.user` object attached by `authenticateToken`: user id, role and
(for vendors whose token carries it) the vendor profile id. -/
structure AuthUser where
  id : String
  role : Role
  vendorProfileId : Option String
deriving DecidableEq, Repr

/-- The relational database state. -/
structure DB where
  products : List Product
  carts : List CartLine
  orders : List OrderRow
  orderItems : List OrderItemRow
  payments : List PaymentRow
  vendorProfiles : List VendorProfileRow
  reviews : List ReviewRow
deriving DecidableEq, Repr

/-- The socket.io events the modelled handlers emit. -/
inductive SocketEvent where
  | newOrderNotification (orderId : String) (message : String) (itemsCount : Nat)
  | orderStatusUpdate (orderId : String) (newStatus : OrderStatus) (message : String)
deriving DecidableEq, Repr

/-- One `io.to(room).emit(event)` call. -/
structure Emission where
  room : String
  event : SocketEvent
deriving DecidableEq, Repr

/-- Room joined by `socket.on("joinCustomerRoom")` in src/server/src/index.ts:
`customer_user_${userId}`. -/
def joinCustomerRoomChannel (userId : String) : String :=
  "customer_user_" ++ userId

/-- Room joined by `socket.on("joinVendorRoom")` in src/server/src/index.ts
(the handler keyed by the vendor-owning user id): `vendor_user_${vendorUserId}`. -/
def joinVendorRoomChannel (vendorUserId : String) : String :=
  "vendor_user_" ++ vendorUserId

/-- The error responses of the modelled handlers, one constructor per
return-site family, carrying the data the source interpolates into its
message. -/
inductive ApiError where
  | forbidden (message : String)
  | validationFailed (issues : List String)
  | emptyCart
  | productUnavailable (name : String)
  | insufficientStock (name : String) (available : Nat)
  | notFound (message : String)
  | notEnoughStock (name : String) (available : Nat)
  | alreadyReviewed
deriving DecidableEq, Repr

/-- The HTTP status code each error is returned with in the source. -/
def ApiError.httpStatus : ApiError → Nat
  | .forbidden _ => 403
  | .validationFailed _ => 400
  | .emptyCart => 400
  | .productUnavailable _ => 400
  | .insufficientStock _ _ => 400
  | .notFound _ => 404
  | .notEnoughStock _ _ => 400
  | .alreadyReviewed => 400

/-- The `prisma.product.findUnique({ where: { id } })`. -/
def findProduct (db : DB) (pid : String) : Option Product :=
  db.products.find? (fun p => p.id == pid)

/-- The `prisma.order.findUnique({ where: { id } })`. -/
def findOrder (db : DB) (oid : String) : Option OrderRow :=
  db.orders.find? (fun o => o.id == oid)

/-- The `prisma.vendorProfile.findUnique({ where: { id } })`. -/
def findVendorProfile (db : DB) (vid : String) : Option VendorProfileRow :=
  db.vendorProfiles.find? (fun v => v.id == vid)

/-- The `prisma.cart.findMany({ where: { customerId } })`. -/
def cartOf (db : DB) (uid : String) : List CartLine :=
  db.carts.filter (fun l => l.customerId == uid)

/-! ### placeOrder (src/server/src/controllers/orderController.ts lines 18-160) -/

/-- Request body of `POST /orders`. -/
structure PlaceOrderBody where
  shippingAddress : String
  contactPhone : String
deriving DecidableEq, Repr

/-- The issues `createOrderSchema.parse` collects:
`shippingAddress: z.string().min(5)`, `contactPhone: z.string().min(10)`. -/
def createOrderIssues (b : PlaceOrderBody) : List String :=
  (if b.shippingAddress.length < 5 then ["Shipping address is required."] else []) ++
  (if b.contactPhone.length < 10 then ["Contact phone is required."] else [])

/-- One element of `orderItemsData`. -/
structure OrderItemData where
  productId : String
  quantity : Nat
  priceAtOrder : Rat
deriving DecidableEq, Repr

/-- The accumulators built by placeOrder's validation loop:
`totalAmount`, `orderItemsData`, `productsToUpdateStock`, `vendorsInOrder`. -/
structure OrderPrep where
  totalAmount : Rat
  orderItemsData : List OrderItemData
  productsToUpdateStock : List (String × Nat)
  vendorsInOrder : List String
deriving DecidableEq, Repr

/-- The initial (empty) accumulators. -/
def OrderPrep.empty : OrderPrep := ⟨0, [], [], []⟩

/-- The `Set.add` on the insertion-ordered `vendorsInOrder` set. -/
def insertVendor (vendors : List String) (v : String) : List String :=
  if v ∈ vendors then vendors else vendors ++ [v]

/-- The `for (const item of cartItems)` loop of placeOrder: per line, reject a
missing or non-APPROVED product, then reject quantity over stock, otherwise
accumulate the total, the order-item data, the stock update and the vendor. -/
def processCartItems (db : DB) : List CartLine → OrderPrep → Except ApiError OrderPrep
  | [], acc => .ok acc
  | item :: rest, acc =>
    match findProduct db item.productId with
    | none => .error (.productUnavailable item.productId)
    | some p =>
      if p.status ≠ Status.APPROVED then
        .error (.productUnavailable p.name)
      else if p.stock < item.quantity then
        .error (.insufficientStock p.name p.stock)
      else
        processCartItems db rest
          { totalAmount := acc.totalAmount + (item.quantity : Rat) * p.price
            orderItemsData := acc.orderItemsData ++ [⟨item.productId, item.quantity, p.price⟩]
            productsToUpdateStock := acc.productsToUpdateStock ++ [(item.productId, item.quantity)]
            vendorsInOrder := insertVendor acc.vendorsInOrder p.vendorId }

/-- The per-product `tx.product.update({ data: { stock: { decrement } } })`
loop of the transaction. -/
def applyStockUpdates : List Product → List (String × Nat) → List Product
  | ps, [] => ps
  | ps, (pid, q) :: rest =>
    applyStockUpdates
      (ps.map (fun p => if p.id == pid then { p with stock := p.stock - q } else p)) rest

/-- The `placeOrder` (POST /orders).  `newOrderId` is the UUID the database
generates for the new order and `now` is `Date.now()`, both supplied by the
environment.  Returns the HTTP outcome, the post-state database and the
socket.io emissions. -/
def placeOrder (db : DB) (user : Option AuthUser) (body : PlaceOrderBody)
    (newOrderId : String) (now : Nat) :
    Except ApiError OrderRow × DB × List Emission :=
  match user with
  | none => (.error (.forbidden "Forbidden: Only customers can place orders."), db, [])
  | some u =>
    if u.role ≠ Role.CUSTOMER then
      (.error (.forbidden "Forbidden: Only customers can place orders."), db, [])
    else if createOrderIssues body ≠ [] then
      (.error (.validationFailed (createOrderIssues body)), db, [])
    else
      let cartItems := cartOf db u.id
      if cartItems = [] then
        (.error .emptyCart, db, [])
      else
        match processCartItems db cartItems OrderPrep.empty with
        | .error e => (.error e, db, [])
        | .ok prep =>
          -- prisma.$transaction: order + nested orderItems createMany,
          -- stock decrements, cart deleteMany, payment create.
          let newOrder : OrderRow :=
            { id := newOrderId
              customerId := u.id
              totalAmount := prep.totalAmount
              status := OrderStatus.PENDING
              paymentStatus := "Pending"
              shippingAddress := body.shippingAddress
              contactPhone := body.contactPhone }
          let newItems : List OrderItemRow :=
            prep.orderItemsData.map
              (fun d => ⟨newOrderId, d.productId, d.quantity, d.priceAtOrder⟩)
          let newPayment : PaymentRow :=
            { orderId := newOrderId
              amount := prep.totalAmount
              paymentMethod := "Mock Payment"
              status := "Completed"
              transactionId := "mock_txn_" ++ toString now ++ "_" ++ newOrderId.take 8 }
          let db' : DB :=
            { db with
              orders := db.orders ++ [newOrder]
              orderItems := db.orderItems ++ newItems
              products := applyStockUpdates db.products prep.productsToUpdateStock
              carts := db.carts.filter (fun l => l.customerId != u.id)
              payments := db.payments ++ [newPayment] }
          -- Post-commit fan-out: per distinct vendor, look up the vendor
          -- profile's owning userId and emit to `vendor_user_${userId}`
          -- (skipped when the profile lookup fails).
          let ems : List Emission :=
            prep.vendorsInOrder.filterMap
              (fun vid =>
                (findVendorProfile db vid).map
                  (fun vp =>
                    ⟨joinVendorRoomChannel vp.userId,
                     .newOrderNotification newOrderId "You have a new order!"
                       prep.orderItemsData.length⟩))
          (.ok newOrder, db', ems)

/-! ### updateOrderStatus (src/server/src/controllers/orderController.ts lines 252-340) -/

/-- The `prisma.orderItem.count({ where: { orderId, product: { vendorId } } }) > 0`:
whether the order contains at least one item whose product belongs to the
given vendor profile. -/
def orderHasVendorItem (db : DB) (oid vpid : String) : Bool :=
  db.orderItems.any
    (fun it => it.orderId == oid && (findProduct db it.productId).any (fun p => p.vendorId == vpid))

/-- The `updateOrderStatus` (PUT /orders/:id/status).  `status` is the body's
status after `updateOrderStatusSchema.parse` has checked it is a member of the
`OrderStatus` enum (non-members fail that parse and lie outside the model). -/
def updateOrderStatus (db : DB) (user : Option AuthUser) (orderId : String)
    (status : OrderStatus) :
    Except ApiError OrderRow × DB × List Emission :=
  match user with
  | none => (.error (.forbidden "Forbidden: Only admin or vendors can update order status."), db, [])
  | some u =>
    if u.role ≠ Role.ADMIN ∧ u.role ≠ Role.VENDOR then
      (.error (.forbidden "Forbidden: Only admin or vendors can update order status."), db, [])
    else
      match findOrder db orderId with
      | none => (.error (.notFound "Order not found."), db, [])
      | some order =>
        let updatedOrder : OrderRow := { order with status := status }
        let success : Except ApiError OrderRow × DB × List Emission :=
          (.ok updatedOrder,
           { db with
             orders := db.orders.map
               (fun o => if o.id == orderId then { o with status := status } else o) },
           -- io.to(`customer_user_${customerId}`).emit("orderStatusUpdate", ...)
           [⟨joinCustomerRoomChannel updatedOrder.customerId,
             .orderStatusUpdate updatedOrder.id status
               ("Your order " ++ updatedOrder.id ++ " is now " ++ status.str ++ ".")⟩])
        if u.role = Role.VENDOR then
          match u.vendorProfileId with
          | none =>
            (.error (.forbidden "Vendor profile ID not found for authenticated vendor."), db, [])
          | some vpid =>
            if orderHasVendorItem db order.id vpid then success
            else
              (.error (.forbidden "Forbidden: You can only update orders that contain your products."),
               db, [])
        else success

/-! ### getCart / addToCart (src/unnamed/part_013, the cart controller) -/

/-- A line of the response of GET /cart: the stored cart row with its
quantity capped, together with the included product. -/
structure CartViewItem where
  customerId : String
  productId : String
  quantity : Nat
  product : Product
deriving DecidableEq, Repr

/-- The `getCart` (GET /cart): filter the customer's stored lines to those whose
product exists and is APPROVED, and cap each quantity by current stock
(`Math.min(item.quantity, item.product.stock)`).  A pure read: the returned
database is the input database. -/
def getCart (db : DB) (user : Option AuthUser) :
    Except ApiError (List CartViewItem) × DB :=
  match user with
  | none => (.error (.forbidden "Forbidden: Only customers have a cart."), db)
  | some u =>
    if u.role ≠ Role.CUSTOMER then
      (.error (.forbidden "Forbidden: Only customers have a cart."), db)
    else
      let validatedCart :=
        (cartOf db u.id).filterMap
          (fun item =>
            match findProduct db item.productId with
            | none => none
            | some p =>
              if p.status = Status.APPROVED then
                some ⟨item.customerId, item.productId, min item.quantity p.stock, p⟩
              else none)
      (.ok validatedCart, db)

/-- The `addToCart` (POST /cart).  `quantity` is the body quantity; the zod check
`quantity: z.number().int().min(1)` is the explicit `quantity < 1` test.  The
stock test compares only the newly requested quantity against current stock;
the upsert then increments an existing line's stored quantity. -/
def addToCart (db : DB) (user : Option AuthUser) (productId : String) (quantity : Nat) :
    Except ApiError CartLine × DB :=
  match user with
  | none => (.error (.forbidden "Forbidden: Only customers can add to cart."), db)
  | some u =>
    if u.role ≠ Role.CUSTOMER then
      (.error (.forbidden "Forbidden: Only customers can add to cart."), db)
    else if quantity < 1 then
      (.error (.validationFailed ["Quantity must be at least 1."]), db)
    else
      match findProduct db productId with
      | none => (.error (.notFound "Product not found or not available."), db)
      | some p =>
        if p.status ≠ Status.APPROVED then
          (.error (.notFound "Product not found or not available."), db)
        else if p.stock < quantity then
          (.error (.notEnoughStock p.name p.stock), db)
        else
          -- prisma.cart.upsert on the composite key (customerId, productId)
          match db.carts.find? (fun l => l.customerId == u.id && l.productId == productId) with
          | some existing =>
            (.ok { existing with quantity := existing.quantity + quantity },
             { db with
               carts := db.carts.map
                 (fun l =>
                   if l.customerId == u.id && l.productId == productId then
                     { l with quantity := l.quantity + quantity }
                   else l) })
          | none =>
            (.ok ⟨u.id, productId, quantity⟩,
             { db with carts := db.carts ++ [⟨u.id, productId, quantity⟩] })

/-! ### getProducts / getProductById / addReview (src/unnamed/part_016, the
product controller).  The response decorations `averageRating` / `reviewCount`
(recomputed from reviews at read time, rounded to one decimal for display) are
presentational and not modelled; the claims under check concern the selected
rows and the error outcomes. -/

/-- The sortable product columns a `sortBy` query parameter can name
(`orderBy[sortBy] = order`). -/
inductive SortKey where
  | byName
  | byPrice
  | byStock
  | byCreatedAt
deriving DecidableEq, Repr

/-- Parsed query string of GET /products.  `page = 1` and `limit = 10` are the
source's defaults; `sortAsc` is the direction (`order || 'asc'`; absent
`sortBy` means the default `createdAt desc`). -/
structure ProductsQuery where
  search : Option String
  categoryId : Option String
  minPrice : Option Rat
  maxPrice : Option Rat
  sortBy : Option SortKey
  sortAsc : Bool
  page : Nat
  limit : Nat
deriving DecidableEq, Repr

/-- The prisma `where` object of getProducts: APPROVED status always, then the
optional case-insensitive name-substring, category and price-range filters. -/
def matchesWhere (q : ProductsQuery) (p : Product) : Bool :=
  p.status == Status.APPROVED &&
  (match q.search with
   | none => true
   | some s => decide (s.toLower.toList <:+: p.name.toLower.toList)) &&
  (match q.categoryId with
   | none => true
   | some c => p.categoryId == c) &&
  (match q.minPrice with
   | none => true
   | some m => decide (m ≤ p.price)) &&
  (match q.maxPrice with
   | none => true
   | some m => decide (p.price ≤ m))

/-- The comparator the `orderBy` clause induces on products. -/
def productLe (k : SortKey) (asc : Bool) (a b : Product) : Bool :=
  let le : Bool :=
    match k with
    | .byName => !decide (b.name < a.name)
    | .byPrice => decide (a.price ≤ b.price)
    | .byStock => decide (a.stock ≤ b.stock)
    | .byCreatedAt => decide (a.createdAt ≤ b.createdAt)
  if asc then le
  else
    match k with
    | .byName => !decide (a.name < b.name)
    | .byPrice => decide (b.price ≤ a.price)
    | .byStock => decide (b.stock ≤ a.stock)
    | .byCreatedAt => decide (b.createdAt ≤ a.createdAt)

/-- The `getProducts` (GET /products): filter by the `where` object, order, then
apply `skip = (page - 1) * limit` and `take = limit`.  Returns the page of
rows and the total count (`prisma.product.count({ where })`). -/
def getProducts (db : DB) (q : ProductsQuery) : List Product × Nat :=
  let filtered := db.products.filter (matchesWhere q)
  let sorted :=
    match q.sortBy with
    | some k => filtered.mergeSort (productLe k q.sortAsc)
    | none => filtered.mergeSort (productLe .byCreatedAt false)
  ((sorted.drop ((q.page - 1) * q.limit)).take q.limit, filtered.length)

/-- The `getProductById` (GET /products/:id): a missing row and a non-APPROVED row
take the same 404 return ("Product not found or not available."). -/
def getProductById (db : DB) (id : String) : Except ApiError Product :=
  match findProduct db id with
  | none => .error (.notFound "Product not found or not available.")
  | some p =>
    if p.status ≠ Status.APPROVED then
      .error (.notFound "Product not found or not available.")
    else .ok p

/-- The `addReview` (POST /products/:id/reviews).  The zod check
`rating: z.number().int().min(1).max(5)` is the explicit range test. -/
def addReview (db : DB) (user : Option AuthUser) (productId : String)
    (rating : Nat) (comment : Option String) :
    Except ApiError ReviewRow × DB :=
  match user with
  | none => (.error (.forbidden "Forbidden: Only customers can add reviews."), db)
  | some u =>
    if u.role ≠ Role.CUSTOMER then
      (.error (.forbidden "Forbidden: Only customers can add reviews."), db)
    else if rating < 1 ∨ 5 < rating then
      (.error (.validationFailed ["Rating must be between 1 and 5."]), db)
    else
      match findProduct db productId with
      | none => (.error (.notFound "Product not found or not approved."), db)
      | some p =>
        if p.status ≠ Status.APPROVED then
          (.error (.notFound "Product not found or not approved."), db)
        else if db.reviews.any (fun r => r.productId == productId && r.customerId == u.id) then
          (.error .alreadyReviewed, db)
        else
          (.ok ⟨productId, u.id, rating, comment⟩,
           { db with reviews := db.reviews ++ [⟨productId, u.id, rating, comment⟩] })

/-! ### Derived definitions used in the claim statements -/

/-- The order-item data a cart line contributes when its product lookup
succeeds (dummy zero price when it does not; the successful paths never reach
the dummy). -/
def lineItemData (db : DB) (l : CartLine) : OrderItemData :=
  match findProduct db l.productId with
  | some p => ⟨l.productId, l.quantity, p.price⟩
  | none => ⟨l.productId, l.quantity, 0⟩

/-- Sum of `priceAtOrder × quantity` over order-item data. -/
def itemsSum (xs : List OrderItemData) : Rat :=
  (xs.map (fun d => (d.quantity : Rat) * d.priceAtOrder)).sum

/-- Sum of `priceAtOrder × quantity` over persisted OrderItem rows. -/
def rowsSum (xs : List OrderItemRow) : Rat :=
  (xs.map (fun it => (it.quantity : Rat) * it.priceAtOrder)).sum

/-- Whether cart line `l` requests more than its product's current stock. -/
def lineOverStock (db : DB) (l : CartLine) : Bool :=
  match findProduct db l.productId with
  | some p => decide (p.stock < l.quantity)
  | none => false

/-- Whether cart line `l` references an existing APPROVED product. -/
def lineApproved (db : DB) (l : CartLine) : Bool :=
  match findProduct db l.productId with
  | some p => p.status == Status.APPROVED
  | none => false

/-- The error the first failing line of placeOrder's validation loop
produces, `none` when every line passes. -/
def firstLineError (db : DB) : List CartLine → Option ApiError
  | [] => none
  | l :: rest =>
    match findProduct db l.productId with
    | none => some (.productUnavailable l.productId)
    | some p =>
      if p.status ≠ Status.APPROVED then some (.productUnavailable p.name)
      else if p.stock < l.quantity then some (.insufficientStock p.name p.stock)
      else firstLineError db rest

/-- Transcription of the specified precondition order for order placement
(spec section 4.1): customer capability first, then the body minimum-length
checks, then cart non-emptiness, then the per-line existence/APPROVED/stock
checks, the first failure deciding the error. -/
def specCheckOrder (db : DB) (user : Option AuthUser) (body : PlaceOrderBody) :
    Option ApiError :=
  match user with
  | none => some (.forbidden "Forbidden: Only customers can place orders.")
  | some u =>
    if u.role ≠ Role.CUSTOMER then
      some (.forbidden "Forbidden: Only customers can place orders.")
    else if createOrderIssues body ≠ [] then
      some (.validationFailed (createOrderIssues body))
    else if cartOf db u.id = [] then
      some .emptyCart
    else firstLineError db (cartOf db u.id)

/-- The step placeOrder's loop applies to the `vendorsInOrder` set for one
cart line. -/
def vendorStep (db : DB) (vs : List String) (l : CartLine) : List String :=
  match findProduct db l.productId with
  | some p => insertVendor vs p.vendorId
  | none => vs

/-- One entry per distinct vendor represented in the given cart lines, in
insertion order (placeOrder's `vendorsInOrder` set). -/
def vendorsOfCart (db : DB) (lines : List CartLine) : List String :=
  lines.foldl (vendorStep db) []

/-- The owning user id of a vendor profile id (`""` when the profile is
absent). -/
def vendorUserIdOf (db : DB) (vid : String) : String :=
  ((findVendorProfile db vid).map (fun vp => vp.userId)).getD ""

/-- Whether a placeOrder outcome is the insufficient-stock rejection. -/
def isInsufficientStockResult : Except ApiError OrderRow → Bool
  | .error (.insufficientStock _ _) => true
  | _ => false

/-! ### Helper lemmas -/

/-- The `find?` commutes with a map that preserves the predicate. -/
theorem find?_map_pres {α : Type} (f : α → α) (p : α → Bool)
    (hf : ∀ a, p (f a) = p a) :
    ∀ l : List α, (l.map f).find? p = (l.find? p).map f := by
  intro l
  induction l with
  | nil => rfl
  | cons a l ih =>
    simp only [List.map_cons, List.find?_cons, hf a]
    cases hpa : p a <;> simp [ih]

/-- The `filterMap` is a `map` when the function is total on the list. -/
theorem filterMap_eq_map_of_all {α β : Type} (f : α → Option β) (g : α → β) :
    ∀ l : List α, (∀ a ∈ l, f a = some (g a)) → l.filterMap f = l.map g := by
  intro l
  induction l with
  | nil => intro _; rfl
  | cons a l ih =>
    intro h
    have ha := h a (List.mem_cons_self a l)
    simp only [List.filterMap_cons, ha, List.map_cons]
    rw [ih (fun x hx => h x (List.mem_cons_of_mem a hx))]

theorem mem_insertVendor {vs : List String} {v w : String} :
    w ∈ insertVendor vs v ↔ w ∈ vs ∨ w = v := by
  unfold insertVendor
  by_cases hv : v ∈ vs
  · simp only [if_pos hv]
    constructor
    · exact fun h => Or.inl h
    · rintro (h | rfl)
      · exact h
      · exact hv
  · simp [if_neg hv]

theorem nodup_insertVendor {vs : List String} {v : String} (h : vs.Nodup) :
    (insertVendor vs v).Nodup := by
  unfold insertVendor
  by_cases hv : v ∈ vs
  · rw [if_pos hv]; exact h
  · rw [if_neg hv]
    refine List.Nodup.append h (List.nodup_singleton v) ?_
    intro a ha hb
    rw [List.mem_singleton] at hb
    subst hb
    exact hv ha

theorem nodup_foldl_vendorStep (db : DB) :
    ∀ (lines : List CartLine) (init : List String), init.Nodup →
      (lines.foldl (vendorStep db) init).Nodup := by
  intro lines
  induction lines with
  | nil => intro init h; simpa using h
  | cons l rest ih =>
    intro init h
    rw [List.foldl_cons]
    apply ih
    unfold vendorStep
    cases findProduct db l.productId with
    | none => exact h
    | some p => exact nodup_insertVendor h

theorem mem_foldl_vendorStep (db : DB) :
    ∀ (lines : List CartLine) (init : List String) (v : String),
      v ∈ lines.foldl (vendorStep db) init ↔
        v ∈ init ∨ ∃ l ∈ lines, ∃ p, findProduct db l.productId = some p ∧ p.vendorId = v := by
  intro lines
  induction lines with
  | nil => intro init v; simp
  | cons l rest ih =>
    intro init v
    rw [List.foldl_cons, ih]
    unfold vendorStep
    cases hfp : findProduct db l.productId with
    | none =>
      simp only [List.mem_cons]
      constructor
      · rintro (h | ⟨l', hl', hp⟩)
        · exact Or.inl h
        · exact Or.inr ⟨l', Or.inr hl', hp⟩
      · rintro (h | ⟨l', hl' | hl', p, hp, hv⟩)
        · exact Or.inl h
        · rw [hl'] at hp; rw [hp] at hfp; cases hfp
        · exact Or.inr ⟨l', hl', p, hp, hv⟩
    | some p =>
      rw [mem_insertVendor]
      simp only [List.mem_cons]
      constructor
      · rintro (⟨h | rfl⟩ | ⟨l', hl', hp⟩)
        · exact Or.inl h
        · exact Or.inr ⟨l, Or.inl rfl, p, hfp, rfl⟩
        · exact Or.inr ⟨l', Or.inr hl', hp⟩
      · rintro (h | ⟨l', hl' | hl', p', hp', hv⟩)
        · exact Or.inl (Or.inl h)
        · subst hl'; rw [hfp] at hp'; cases hp'; exact Or.inl (Or.inr hv.symm)
        · exact Or.inr ⟨l', hl', p', hp', hv⟩

/-- The validation loop fails with exactly the first failing line's error. -/
theorem processCartItems_error_iff (db : DB) (e : ApiError) :
    ∀ (lines : List CartLine) (acc : OrderPrep),
      processCartItems db lines acc = .error e ↔ firstLineError db lines = some e := by
  intro lines
  induction lines with
  | nil => intro acc; simp [processCartItems, firstLineError]
  | cons l rest ih =>
    intro acc
    simp only [processCartItems, firstLineError]
    cases hfp : findProduct db l.productId with
    | none => simp
    | some p =>
      by_cases hst : p.status = Status.APPROVED
      · by_cases hq : p.stock < l.quantity
        · simp [hst, hq]
        · simp [hst, hq, ih]
      · simp [hst]

/-- What the validation loop accumulates on success. -/
theorem processCartItems_ok (db : DB) :
    ∀ (lines : List CartLine) (acc prep : OrderPrep),
      processCartItems db lines acc = .ok prep →
      prep.orderItemsData = acc.orderItemsData ++ lines.map (lineItemData db) ∧
      prep.productsToUpdateStock =
        acc.productsToUpdateStock ++ lines.map (fun l => (l.productId, l.quantity)) ∧
      prep.totalAmount = acc.totalAmount + itemsSum (lines.map (lineItemData db)) ∧
      prep.vendorsInOrder = lines.foldl (vendorStep db) acc.vendorsInOrder ∧
      ∀ l ∈ lines, ∃ p, findProduct db l.productId = some p ∧
        p.status = Status.APPROVED ∧ l.quantity ≤ p.stock := by
  intro lines
  induction lines with
  | nil =>
    intro acc prep h
    simp only [processCartItems] at h
    cases h
    simp [itemsSum]
  | cons l rest ih =>
    intro acc prep h
    simp only [processCartItems] at h
    cases hfp : findProduct db l.productId with
    | none =>
      simp only [hfp] at h
      exact Except.noConfusion h
    | some p =>
      simp only [hfp] at h
      by_cases hst : p.status = Status.APPROVED
      · by_cases hq : p.stock < l.quantity
        · rw [if_neg (by simp [hst]), if_pos hq] at h
          exact Except.noConfusion h
        · rw [if_neg (by simp [hst]), if_neg hq] at h
          obtain ⟨h1, h2, h3, h4, h5⟩ := ih _ _ h
          have hline : lineItemData db l = ⟨l.productId, l.quantity, p.price⟩ := by
            simp [lineItemData, hfp]
          refine ⟨?_, ?_, ?_, ?_, ?_⟩
          · simp only [h1, hline, List.map_cons]
            simp
          · simp only [h2, List.map_cons]
            simp
          · simp only [h3, List.map_cons, itemsSum, List.sum_cons, hline]
            ring
          · rw [List.foldl_cons]
            simp only [h4, vendorStep, hfp]
          · intro l' hl'
            rcases List.mem_cons.mp hl' with rfl | hl'
            · exact ⟨p, hfp, hst, Nat.le_of_not_lt hq⟩
            · exact h5 l' hl'
      · rw [if_pos (by exact hst)] at h
        exact Except.noConfusion h

/-- A stock-decrement pass preserves ids, so lookups of untouched ids are
unchanged. -/
theorem applyStockUpdates_find?_of_not_mem :
    ∀ (updates : List (String × Nat)) (ps : List Product) (pid : String),
      pid ∉ updates.map Prod.fst →
      (applyStockUpdates ps updates).find? (fun p => p.id == pid) =
        ps.find? (fun p => p.id == pid) := by
  intro updates
  induction updates with
  | nil => intro ps pid _; rfl
  | cons u rest ih =>
    intro ps pid hmem
    obtain ⟨u1, u2⟩ := u
    simp only [List.map_cons, List.mem_cons] at hmem
    push_neg at hmem
    obtain ⟨hne, hrest⟩ := hmem
    simp only [applyStockUpdates]
    rw [ih _ _ hrest]
    rw [find?_map_pres _ _ (fun a => by by_cases ha : a.id == u1 <;> simp [ha])]
    cases hf : ps.find? (fun p => p.id == pid) with
    | none => rfl
    | some p =>
      have hp := List.find?_some hf
      have hid : p.id = pid := by simpa using hp
      simp [hid, hne]

/-- Looking up a product after all stock decrements of a key-distinct update
list: its stock is decreased by exactly its own update. -/
theorem applyStockUpdates_find?_of_mem :
    ∀ (updates : List (String × Nat)) (ps : List Product) (pid : String) (q : Nat),
      (pid, q) ∈ updates → (updates.map Prod.fst).Nodup →
      (applyStockUpdates ps updates).find? (fun p => p.id == pid) =
        (ps.find? (fun p => p.id == pid)).map (fun p => { p with stock := p.stock - q }) := by
  intro updates
  induction updates with
  | nil => intro ps pid q hmem _; cases hmem
  | cons u rest ih =>
    intro ps pid q hmem hnd
    obtain ⟨u1, u2⟩ := u
    simp only [List.map_cons, List.nodup_cons] at hnd
    obtain ⟨hnotin, hndrest⟩ := hnd
    simp only [applyStockUpdates]
    rcases List.mem_cons.mp hmem with heq | hmemrest
    · injection heq with h1 h2
      subst h1
      subst h2
      rw [applyStockUpdates_find?_of_not_mem _ _ _ hnotin]
      rw [find?_map_pres _ _ (fun a => by by_cases ha : a.id == pid <;> simp [ha])]
      cases hf : ps.find? (fun p => p.id == pid) with
      | none => rfl
      | some p =>
        have hp := List.find?_some hf
        have hid : p.id = pid := by simpa using hp
        simp [hid]
    · have hpid : pid ∈ rest.map Prod.fst := List.mem_map.mpr ⟨(pid, q), hmemrest, rfl⟩
      have hne : pid ≠ u1 := fun hh => hnotin (hh ▸ hpid)
      rw [ih _ _ _ hmemrest hndrest]
      congr 1
      rw [find?_map_pres _ _ (fun a => by by_cases ha : a.id == u1 <;> simp [ha])]
      cases hf : ps.find? (fun p => p.id == pid) with
      | none => rfl
      | some p =>
        have hp := List.find?_some hf
        have hid : p.id = pid := by simpa using hp
        simp [hid, hne]

/-! ### Claim C1 -/

/-- C1: For every successful order placement by a customer, the created
order's totalAmount equals the sum over its order items of priceAtOrder times
quantity, each ordered product's post-commit stock equals its pre-order stock
minus the quantity ordered for it, the customer's cart is empty afterwards,
and exactly one Payment row with status "Completed" is created for the order.
(The freshness hypotheses say the database-generated order id is new, and the
key-distinctness hypothesis is the schema's unique index on
(customerId, productId) in Cart.) -/
theorem placeOrder_success_postconditions
    (db : DB) (u : AuthUser) (body : PlaceOrderBody) (oid : String) (now : Nat)
    (order : OrderRow) (db' : DB) (ems : List Emission)
    (h : placeOrder db (some u) body oid now = (.ok order, db', ems))
    (hcartKeys : ((cartOf db u.id).map (fun l => l.productId)).Nodup)
    (hfreshItems : ∀ it ∈ db.orderItems, it.orderId ≠ oid)
    (hfreshPays : ∀ pay ∈ db.payments, pay.orderId ≠ oid) :
    order.id = oid ∧
    order.totalAmount = rowsSum (db'.orderItems.filter (fun it => it.orderId == oid)) ∧
    (∀ l ∈ cartOf db u.id, ∀ p, findProduct db l.productId = some p →
        findProduct db' l.productId = some { p with stock := p.stock - l.quantity }) ∧
    cartOf db' u.id = [] ∧
    (db'.payments.filter (fun pay => pay.orderId == oid)).length = 1 ∧
    (∀ pay ∈ db'.payments, pay.orderId = oid → pay.status = "Completed") := by
  simp only [placeOrder] at h
  split at h
  · simp at h
  · split at h
    · simp at h
    · split at h
      · simp at h
      · cases hpr : processCartItems db (cartOf db u.id) OrderPrep.empty with
        | error e => rw [hpr] at h; simp at h
        | ok prep =>
          rw [hpr] at h
          obtain ⟨h1, h2, h3, h4, h5⟩ := processCartItems_ok db _ _ _ hpr
          simp only [Prod.mk.injEq, Except.ok.injEq] at h
          obtain ⟨hOrd, hDb, hEms⟩ := h
          subst hOrd
          subst hDb
          subst hEms
          refine ⟨rfl, ?_, ?_, ?_, ?_, ?_⟩
          · -- totalAmount = sum over the created order items
            simp only [List.filter_append]
            have hold : db.orderItems.filter (fun it => it.orderId == oid) = [] := by
              rw [List.filter_eq_nil_iff]
              intro it hit
              simpa using hfreshItems it hit
            have hnew :
                (prep.orderItemsData.map
                    (fun d => OrderItemRow.mk oid d.productId d.quantity d.priceAtOrder)).filter
                  (fun it => it.orderId == oid) =
                prep.orderItemsData.map
                  (fun d => OrderItemRow.mk oid d.productId d.quantity d.priceAtOrder) := by
              rw [List.filter_eq_self]
              intro it hit
              obtain ⟨d, _, rfl⟩ := List.mem_map.mp hit
              simp
            rw [hold, hnew, List.nil_append]
            rw [h3, h1]
            simp only [OrderPrep.empty, List.nil_append, Rat.zero_add]
            unfold rowsSum itemsSum
            simp only [List.map_map]
            rfl
          · -- per-product stock decrement
            intro l hl p hp
            have hmem : (l.productId, l.quantity) ∈ prep.productsToUpdateStock := by
              rw [h2]
              simp only [OrderPrep.empty, List.nil_append]
              exact List.mem_map.mpr ⟨l, hl, rfl⟩
            have hkeys : (prep.productsToUpdateStock.map Prod.fst).Nodup := by
              rw [h2]
              simp only [OrderPrep.empty, List.nil_append, List.map_map]
              simpa [Function.comp] using hcartKeys
            unfold findProduct
            show (applyStockUpdates db.products prep.productsToUpdateStock).find?
                (fun pr => pr.id == l.productId) = _
            rw [applyStockUpdates_find?_of_mem _ _ _ _ hmem hkeys]
            unfold findProduct at hp
            rw [hp]
            rfl
          · -- cart cleared
            unfold cartOf
            rw [List.filter_eq_nil_iff]
            intro a ha
            have := (List.mem_filter.mp ha).2
            simp only [bne_iff_ne, ne_eq] at this
            simpa using this
          · -- exactly one payment row for the order
            simp only [List.filter_append]
            have hold : db.payments.filter (fun pay => pay.orderId == oid) = [] := by
              rw [List.filter_eq_nil_iff]
              intro pay hpay
              simpa using hfreshPays pay hpay
            rw [hold]
            simp
          · -- every payment for the order is Completed
            intro pay hpay hoid
            rcases List.mem_append.mp hpay with hpold | hpnew
            · exact absurd hoid (hfreshPays pay hpold)
            · rw [List.mem_singleton] at hpnew
              subst hpnew
              rfl

/-! ### Concrete fixtures (the spec's worked scenario: cart = [{P1, qty 2,
price 10.00}], stock(P1) = 5) -/

/-- Product P1: price 10, stock 5, APPROVED, owned by vendor profile V1. -/
def exP1 : Product := ⟨"P1", "V1", "CAT1", "Apple", 10, 5, Status.APPROVED, 0⟩

/-- The authenticated customer CU1. -/
def exCustomer : AuthUser := ⟨"CU1", Role.CUSTOMER, none⟩

/-- A valid checkout body (address length ≥ 5, phone length ≥ 10). -/
def exBody : PlaceOrderBody := ⟨"123 Main Street", "0123456789"⟩

/-- Initial database: P1 in stock 5, CU1's cart holding 2 × P1, vendor
profile V1 owned by user U1. -/
def exDb : DB :=
  ⟨[exP1], [⟨"CU1", "P1", 2⟩], [], [], [], [⟨"V1", "U1", Status.APPROVED⟩], []⟩

/-- The order the scenario's checkout creates (totalAmount 20). -/
def exOrder1 : OrderRow :=
  ⟨"ORD1", "CU1", 20, OrderStatus.PENDING, "Pending", "123 Main Street", "0123456789"⟩

/-- The database after the scenario's checkout: stock 3, cart empty, one
Completed payment. -/
def exDb1 : DB :=
  ⟨[⟨"P1", "V1", "CAT1", "Apple", 10, 3, Status.APPROVED, 0⟩], [], [exOrder1],
   [⟨"ORD1", "P1", 2, 10⟩], [⟨"ORD1", 20, "Mock Payment", "Completed", "mock_txn_0_ORD1"⟩],
   [⟨"V1", "U1", Status.APPROVED⟩], []⟩

/-- The notification fan-out of the scenario's checkout. -/
def exEms1 : List Emission :=
  [⟨"vendor_user_U1", .newOrderNotification "ORD1" "You have a new order!" 1⟩]

/-- The scenario's checkout evaluated: this is the equation the witnesses
feed to the claim theorems. -/
theorem exPlaceOrder_eval :
    placeOrder exDb (some exCustomer) exBody "ORD1" 0 = (.ok exOrder1, exDb1, exEms1) := by
  norm_num [placeOrder, exDb, exCustomer, exBody, exP1, exOrder1, exDb1, exEms1, cartOf,
    OrderPrep.empty, processCartItems, findProduct, applyStockUpdates, findVendorProfile,
    joinVendorRoomChannel, insertVendor, createOrderIssues]
  decide

/-- Witness for C1 at the spec's scenario. -/
theorem placeOrder_success_postconditions_witness :
    exOrder1.id = "ORD1" ∧
    exOrder1.totalAmount = rowsSum (exDb1.orderItems.filter (fun it => it.orderId == "ORD1")) ∧
    (∀ l ∈ cartOf exDb exCustomer.id, ∀ p, findProduct exDb l.productId = some p →
        findProduct exDb1 l.productId = some { p with stock := p.stock - l.quantity }) ∧
    cartOf exDb1 exCustomer.id = [] ∧
    (exDb1.payments.filter (fun pay => pay.orderId == "ORD1")).length = 1 ∧
    (∀ pay ∈ exDb1.payments, pay.orderId = "ORD1" → pay.status = "Completed") :=
  placeOrder_success_postconditions exDb exCustomer exBody "ORD1" 0 exOrder1 exDb1 exEms1
    exPlaceOrder_eval (by decide) (by decide) (by decide)

/-! ### Claim C2 -/

/-- An over-stock cart whose product is not APPROVED (status PENDING):
the validation loop reports product-unavailable, not insufficient-stock. -/
def c2Db : DB :=
  ⟨[⟨"P1", "V1", "CAT1", "Apple", 10, 5, Status.PENDING, 0⟩], [⟨"CU1", "P1", 10⟩],
   [], [], [], [⟨"V1", "U1", Status.APPROVED⟩], []⟩

/-- C2 counterexample: a checkout whose single cart line requests 10 of a
product with stock 5 (so the claim's premise holds), but whose product is in
PENDING status: the code rejects it with the product-unavailable error, not
an insufficient-stock error. -/
theorem placeOrder_insufficient_kind_counterexample :
    lineOverStock c2Db ⟨"CU1", "P1", 10⟩ = true ∧
    cartOf c2Db "CU1" = [⟨"CU1", "P1", 10⟩] ∧
    (placeOrder c2Db (some exCustomer) exBody "O2" 0).1 = .error (.productUnavailable "Apple") ∧
    isInsufficientStockResult (placeOrder c2Db (some exCustomer) exBody "O2" 0).1 = false := by
  decide

/-- The first failing line of an any-over-stock cart produces some error. -/
theorem firstLineError_isSome_of_over (db : DB) :
    ∀ lines : List CartLine, lines.any (fun l => lineOverStock db l) = true →
      ∃ e, firstLineError db lines = some e := by
  intro lines
  induction lines with
  | nil => intro h; simp at h
  | cons l rest ih =>
    intro h
    cases hfp : findProduct db l.productId with
    | none =>
      simp only [firstLineError, hfp]
      exact ⟨_, rfl⟩
    | some p =>
      simp only [firstLineError, hfp]
      by_cases hst : p.status = Status.APPROVED
      · by_cases hq : p.stock < l.quantity
        · rw [if_neg (by simp [hst]), if_pos hq]
          exact ⟨_, rfl⟩
        · rw [if_neg (by simp [hst]), if_neg hq]
          apply ih
          rcases List.any_eq_true.mp h with ⟨l', hl', hover⟩
          rcases List.mem_cons.mp hl' with rfl | hl'
          · exfalso
            unfold lineOverStock at hover
            rw [hfp] at hover
            exact hq (by simpa using hover)
          · exact List.any_eq_true.mpr ⟨l', hl', hover⟩
      · rw [if_pos (by exact hst)]
        exact ⟨_, rfl⟩

/-- With every line's product existing and APPROVED, an any-over-stock cart's
first failing line produces the insufficient-stock error of an over-stock
product. -/
theorem firstLineError_over_all_approved (db : DB) :
    ∀ lines : List CartLine, lines.any (fun l => lineOverStock db l) = true →
      lines.all (fun l => lineApproved db l) = true →
      ∃ p, findProduct db p.id = some p ∧
        (∃ l ∈ lines, l.productId = p.id ∧ p.stock < l.quantity) ∧
        firstLineError db lines = some (.insufficientStock p.name p.stock) := by
  intro lines
  induction lines with
  | nil => intro h _; simp at h
  | cons l rest ih =>
    intro hover hall
    have hallrest : rest.all (fun l => lineApproved db l) = true := by
      rw [List.all_eq_true] at hall ⊢
      exact fun x hx => hall x (List.mem_cons_of_mem l hx)
    have hheadAppr : lineApproved db l = true :=
      List.all_eq_true.mp hall l (List.mem_cons_self l rest)
    cases hfp : findProduct db l.productId with
    | none =>
      exfalso
      unfold lineApproved at hheadAppr
      rw [hfp] at hheadAppr
      exact Bool.noConfusion hheadAppr
    | some p =>
      simp only [firstLineError, hfp]
      have hst : p.status = Status.APPROVED := by
        unfold lineApproved at hheadAppr
        rw [hfp] at hheadAppr
        simpa using hheadAppr
      rw [if_neg (by simp [hst])]
      by_cases hq : p.stock < l.quantity
      · rw [if_pos hq]
        have hid : p.id = l.productId := by
          have := List.find?_some hfp
          simpa using this
        refine ⟨p, ?_, ⟨l, List.mem_cons_self l rest, hid.symm, hq⟩, rfl⟩
        unfold findProduct
        rw [hid]
        exact hfp
      · rw [if_neg hq]
        have hoverRest : rest.any (fun l => lineOverStock db l) = true := by
          rcases List.any_eq_true.mp hover with ⟨l', hl', ho⟩
          rcases List.mem_cons.mp hl' with rfl | hl'
          · exfalso
            unfold lineOverStock at ho
            rw [hfp] at ho
            exact hq (by simpa using ho)
          · exact List.any_eq_true.mpr ⟨l', hl', ho⟩
        obtain ⟨p', hp', hex, hfe⟩ := ih hoverRest hallrest
        exact ⟨p', hp', by
          obtain ⟨l', hl', h1, h2⟩ := hex
          exact ⟨l', List.mem_cons_of_mem l hl', h1, h2⟩, hfe⟩

/-- C2 (amended): when a customer with a valid body checks out a cart in
which some line's quantity exceeds its product's current stock, the operation
fails and no state is changed (no stock decremented, no Order/OrderItem/
Payment row created, cart intact, nothing emitted); if in addition every cart
line references an existing APPROVED product, the error is the
insufficient-stock error naming an over-stock product and its available
quantity. -/
theorem placeOrder_insufficientStock_amended
    (db : DB) (u : AuthUser) (body : PlaceOrderBody) (oid : String) (now : Nat)
    (hrole : u.role = Role.CUSTOMER)
    (hbody : createOrderIssues body = [])
    (hover : (cartOf db u.id).any (fun l => lineOverStock db l) = true) :
    (∃ e, placeOrder db (some u) body oid now = (.error e, db, [])) ∧
    ((cartOf db u.id).all (fun l => lineApproved db l) = true →
      ∃ p, findProduct db p.id = some p ∧
        (∃ l ∈ cartOf db u.id, l.productId = p.id ∧ p.stock < l.quantity) ∧
        (placeOrder db (some u) body oid now).1 = .error (.insufficientStock p.name p.stock)) := by
  have hne : cartOf db u.id ≠ [] := by
    intro hnil
    rw [hnil] at hover
    simp at hover
  constructor
  · obtain ⟨e, he⟩ := firstLineError_isSome_of_over db _ hover
    refine ⟨e, ?_⟩
    simp only [placeOrder]
    rw [if_neg (by simp [hrole]), if_neg (by simp [hbody]), if_neg hne]
    rw [(processCartItems_error_iff db e _ OrderPrep.empty).mpr he]
  · intro hall
    obtain ⟨p, hp, hex, hfe⟩ := firstLineError_over_all_approved db _ hover hall
    refine ⟨p, hp, hex, ?_⟩
    simp only [placeOrder]
    rw [if_neg (by simp [hrole]), if_neg (by simp [hbody]), if_neg hne]
    rw [(processCartItems_error_iff db _ _ OrderPrep.empty).mpr hfe]

/-- All-APPROVED over-stock cart for the C2 witness (stock 5, requested 10). -/
def c2aDb : DB :=
  ⟨[⟨"P1", "V1", "CAT1", "Apple", 10, 5, Status.APPROVED, 0⟩], [⟨"CU1", "P1", 10⟩],
   [], [], [], [⟨"V1", "U1", Status.APPROVED⟩], []⟩

/-- Witness for the amended C2 at the spec's scenario (qty 10, stock 5,
product APPROVED): the checkout fails in place with the insufficient-stock
error for P1. -/
theorem placeOrder_insufficientStock_amended_witness :
    (∃ e, placeOrder c2aDb (some exCustomer) exBody "O2" 0 = (.error e, c2aDb, [])) ∧
    ((cartOf c2aDb exCustomer.id).all (fun l => lineApproved c2aDb l) = true →
      ∃ p, findProduct c2aDb p.id = some p ∧
        (∃ l ∈ cartOf c2aDb exCustomer.id, l.productId = p.id ∧ p.stock < l.quantity) ∧
        (placeOrder c2aDb (some exCustomer) exBody "O2" 0).1 =
          .error (.insufficientStock p.name p.stock)) :=
  placeOrder_insufficientStock_amended c2aDb exCustomer exBody "O2" 0
    (by decide) (by decide) (by decide)

/-! ### Claim C3 -/

/-- C3: Order placement checks its preconditions in the specified order —
customer capability, then the body minimum-length checks, then cart
non-emptiness, then per-line existing/APPROVED/sufficient-stock checks — the
first failing check deciding the error (`specCheckOrder` transcribes that
ordered list), every failing run leaves the state unchanged and emits
nothing, and checkout on an empty cart fails with the empty-cart error and
performs zero writes. -/
theorem placeOrder_precondition_order
    (db : DB) (user : Option AuthUser) (body : PlaceOrderBody) (oid : String) (now : Nat) :
    (∀ e, (placeOrder db user body oid now).1 = .error e ↔
        specCheckOrder db user body = some e) ∧
    (∀ e, (placeOrder db user body oid now).1 = .error e →
        placeOrder db user body oid now = (.error e, db, [])) ∧
    (∀ u, user = some u → u.role = Role.CUSTOMER → createOrderIssues body = [] →
        cartOf db u.id = [] → placeOrder db user body oid now = (.error .emptyCart, db, [])) := by
  cases user with
  | none =>
    refine ⟨?_, ?_, ?_⟩
    · intro e; simp [placeOrder, specCheckOrder]
    · intro e he
      simp only [placeOrder] at he ⊢
      rw [← he]
    · intro u hu; cases hu
  | some u =>
    by_cases hrole : u.role = Role.CUSTOMER
    · by_cases hbody : createOrderIssues body = []
      · by_cases hcart : cartOf db u.id = []
        · have hres : placeOrder db (some u) body oid now = (.error .emptyCart, db, []) := by
            simp only [placeOrder]
            rw [if_neg (not_not_intro hrole), if_neg (not_not_intro hbody), if_pos hcart]
          refine ⟨?_, ?_, ?_⟩
          · intro e
            rw [hres]
            simp [specCheckOrder, hrole, hbody, hcart]
          · intro e he
            rw [hres] at he ⊢
            simp only [Except.error.injEq] at he
            rw [he]
          · intro u' hu' _ _ _
            cases hu'
            exact hres
        · cases hpr : processCartItems db (cartOf db u.id) OrderPrep.empty with
          | error e0 =>
            have hfe : firstLineError db (cartOf db u.id) = some e0 :=
              (processCartItems_error_iff db e0 _ OrderPrep.empty).mp hpr
            have hres : placeOrder db (some u) body oid now = (.error e0, db, []) := by
              simp only [placeOrder]
              rw [if_neg (not_not_intro hrole), if_neg (not_not_intro hbody), if_neg hcart]
              simp only [hpr]
            refine ⟨?_, ?_, ?_⟩
            · intro e
              rw [hres]
              simp only [specCheckOrder]
              rw [if_neg (not_not_intro hrole), if_neg (not_not_intro hbody), if_neg hcart, hfe]
              simp
            · intro e he
              rw [hres] at he ⊢
              simp only [Except.error.injEq] at he
              rw [he]
            · intro u' hu' _ _ hnil
              cases hu'
              exact absurd hnil hcart
          | ok prep =>
            have hfe : firstLineError db (cartOf db u.id) = none := by
              cases hfe0 : firstLineError db (cartOf db u.id) with
              | none => rfl
              | some e0 =>
                have hcontra := (processCartItems_error_iff db e0 _ OrderPrep.empty).mpr hfe0
                rw [hpr] at hcontra
                exact Except.noConfusion hcontra
            have hok : ∃ res, (placeOrder db (some u) body oid now).1 = .ok res := by
              simp only [placeOrder]
              rw [if_neg (not_not_intro hrole), if_neg (not_not_intro hbody), if_neg hcart]
              simp only [hpr]
              exact ⟨_, rfl⟩
            obtain ⟨res, hres1⟩ := hok
            refine ⟨?_, ?_, ?_⟩
            · intro e
              rw [hres1]
              simp only [specCheckOrder]
              rw [if_neg (not_not_intro hrole), if_neg (not_not_intro hbody), if_neg hcart, hfe]
              simp
            · intro e he
              rw [hres1] at he
              exact Except.noConfusion he
            · intro u' hu' _ _ hnil
              cases hu'
              exact absurd hnil hcart
      · have hres : placeOrder db (some u) body oid now =
            (.error (.validationFailed (createOrderIssues body)), db, []) := by
          simp only [placeOrder]
          rw [if_neg (not_not_intro hrole), if_pos hbody]
        refine ⟨?_, ?_, ?_⟩
        · intro e
          rw [hres]
          simp [specCheckOrder, hrole, hbody]
        · intro e he
          rw [hres] at he ⊢
          simp only [Except.error.injEq] at he
          rw [he]
        · intro u' hu' _ hb _
          cases hu'
          exact absurd hb hbody
    · have hres : placeOrder db (some u) body oid now =
          (.error (.forbidden "Forbidden: Only customers can place orders."), db, []) := by
        simp only [placeOrder]
        rw [if_pos hrole]
      refine ⟨?_, ?_, ?_⟩
      · intro e
        rw [hres]
        simp [specCheckOrder, hrole]
      · intro e he
        rw [hres] at he ⊢
        simp only [Except.error.injEq] at he
        rw [he]
      · intro u' hu' hr _ _
        cases hu'
        exact absurd hr hrole

/-- Customer CU1 with an empty cart. -/
def c3Db : DB :=
  ⟨[⟨"P1", "V1", "CAT1", "Apple", 10, 5, Status.APPROVED, 0⟩], [], [], [], [],
   [⟨"V1", "U1", Status.APPROVED⟩], []⟩

/-- Witness for C3: an empty-cart checkout by a customer with a valid body
fails with the empty-cart error and leaves the database untouched. -/
theorem placeOrder_precondition_order_witness :
    placeOrder c3Db (some exCustomer) exBody "O3" 0 = (.error .emptyCart, c3Db, []) :=
  (placeOrder_precondition_order c3Db (some exCustomer) exBody "O3" 0).2.2 exCustomer rfl
    (by decide) (by decide) (by decide)

/-! ### Claims C4 and C5 -/

/-- Every run of updateOrderStatus either fails in place (state unchanged, no
emission) or succeeds for an authorized caller, persisting the new status and
emitting exactly the owning customer's notification. -/
theorem updateOrderStatus_shape
    (db : DB) (user : Option AuthUser) (orderId : String) (status : OrderStatus) :
    (∃ e, updateOrderStatus db user orderId status = (.error e, db, [])) ∨
    (∃ u order, user = some u ∧ findOrder db orderId = some order ∧ order.id = orderId ∧
      (u.role = Role.ADMIN ∨ (u.role = Role.VENDOR ∧ ∃ vpid, u.vendorProfileId = some vpid ∧
         orderHasVendorItem db orderId vpid = true)) ∧
      updateOrderStatus db user orderId status =
        (.ok { order with status := status },
         { db with orders := db.orders.map (fun o => if o.id == orderId then { o with status := status } else o) },
         [⟨joinCustomerRoomChannel order.customerId,
           .orderStatusUpdate order.id status
             ("Your order " ++ order.id ++ " is now " ++ status.str ++ ".")⟩])) := by
  cases user with
  | none => exact Or.inl ⟨_, rfl⟩
  | some u =>
    by_cases hr : u.role ≠ Role.ADMIN ∧ u.role ≠ Role.VENDOR
    · refine Or.inl
        ⟨.forbidden "Forbidden: Only admin or vendors can update order status.", ?_⟩
      simp only [updateOrderStatus]
      rw [if_pos hr]
    · cases hfo : findOrder db orderId with
      | none =>
        refine Or.inl ⟨.notFound "Order not found.", ?_⟩
        simp only [updateOrderStatus]
        rw [if_neg hr]
        simp only [hfo]
      | some order =>
        have hid : order.id = orderId := by simpa using List.find?_some hfo
        by_cases hv : u.role = Role.VENDOR
        · cases hvp : u.vendorProfileId with
          | none =>
            refine Or.inl
              ⟨.forbidden "Vendor profile ID not found for authenticated vendor.", ?_⟩
            simp only [updateOrderStatus]
            rw [if_neg hr]
            simp only [hfo]
            rw [if_pos hv]
            simp only [hvp]
          | some vpid =>
            by_cases hbel : orderHasVendorItem db order.id vpid = true
            · refine Or.inr ⟨u, order, rfl, rfl, hid, Or.inr ⟨hv, vpid, hvp, hid ▸ hbel⟩, ?_⟩
              simp only [updateOrderStatus]
              rw [if_neg hr]
              simp only [hfo]
              rw [if_pos hv]
              simp only [hvp]
              rw [if_pos hbel]
            · refine Or.inl
                ⟨.forbidden "Forbidden: You can only update orders that contain your products.", ?_⟩
              simp only [updateOrderStatus]
              rw [if_neg hr]
              simp only [hfo]
              rw [if_pos hv]
              simp only [hvp]
              rw [if_neg hbel]
        · have hadmin : u.role = Role.ADMIN := by
            rcases not_and_or.mp hr with h1 | h2
            · exact not_not.mp h1
            · exact absurd (not_not.mp h2) hv
          refine Or.inr ⟨u, order, rfl, rfl, hid, Or.inl hadmin, ?_⟩
          simp only [updateOrderStatus]
          rw [if_neg hr]
          simp only [hfo]
          rw [if_neg hv]

/-- C4: An order status update succeeds only when the caller is ADMIN or a
VENDOR with at least one OrderItem in the order whose product belongs to
their own vendor profile; a CUSTOMER always fails with the forbidden error, a
VENDOR whose products do not appear in the order fails with the forbidden
error, and every failing run leaves the database unchanged (and emits
nothing). -/
theorem updateOrderStatus_authorization
    (db : DB) (user : Option AuthUser) (orderId : String) (status : OrderStatus) :
    (∀ o' db' ems, updateOrderStatus db user orderId status = (.ok o', db', ems) →
      ∃ u, user = some u ∧
        (u.role = Role.ADMIN ∨ (u.role = Role.VENDOR ∧ ∃ vpid, u.vendorProfileId = some vpid ∧
          orderHasVendorItem db orderId vpid = true))) ∧
    (∀ u, user = some u → u.role = Role.CUSTOMER →
      updateOrderStatus db user orderId status =
        (.error (.forbidden "Forbidden: Only admin or vendors can update order status."), db, [])) ∧
    (∀ u vpid order, user = some u → u.role = Role.VENDOR → u.vendorProfileId = some vpid →
      findOrder db orderId = some order → orderHasVendorItem db orderId vpid = false →
      updateOrderStatus db user orderId status =
        (.error (.forbidden "Forbidden: You can only update orders that contain your products."),
         db, [])) ∧
    (∀ e, (updateOrderStatus db user orderId status).1 = .error e →
      updateOrderStatus db user orderId status = (.error e, db, [])) := by
  refine ⟨?_, ?_, ?_, ?_⟩
  · intro o' db' ems h
    rcases updateOrderStatus_shape db user orderId status with ⟨e, heq⟩ | ⟨u, order, hu, _, _, hauth, heq⟩
    · rw [heq] at h
      simp at h
    · exact ⟨u, hu, hauth⟩
  · intro u hu hcust
    cases hu
    simp only [updateOrderStatus]
    rw [if_pos ⟨by simp [hcust], by simp [hcust]⟩]
  · intro u vpid order hu hv hvp hfo hno
    cases hu
    have hid : order.id = orderId := by simpa using List.find?_some hfo
    simp only [updateOrderStatus]
    rw [if_neg (fun hc => hc.2 hv)]
    simp only [hfo]
    rw [if_pos hv]
    simp only [hvp]
    rw [if_neg (by rw [hid, hno]; exact Bool.false_ne_true)]
  · intro e he
    rcases updateOrderStatus_shape db user orderId status with ⟨e', heq⟩ | ⟨_, _, _, _, _, _, heq⟩
    · rw [heq] at he ⊢
      simp only [Except.error.injEq] at he
      rw [he]
    · rw [heq] at he
      exact Except.noConfusion he

/-- C5: Every successful status update persists the new status and emits
exactly one orderStatusUpdate event, carrying the order id and the new
status, to the channel the owning customer's session joins — and to no other
channel. -/
theorem updateOrderStatus_notifies_owner
    (db : DB) (user : Option AuthUser) (orderId : String) (status : OrderStatus)
    (o' : OrderRow) (db' : DB) (ems : List Emission)
    (h : updateOrderStatus db user orderId status = (.ok o', db', ems)) :
    ∃ order, findOrder db orderId = some order ∧
      o' = { order with status := status } ∧
      findOrder db' orderId = some { order with status := status } ∧
      ems = [⟨joinCustomerRoomChannel order.customerId,
             .orderStatusUpdate order.id status
               ("Your order " ++ order.id ++ " is now " ++ status.str ++ ".")⟩] := by
  rcases updateOrderStatus_shape db user orderId status with ⟨e, heq⟩ | ⟨u, order, hu, hfo, hid, _, heq⟩
  · rw [heq] at h
    simp at h
  · rw [heq] at h
    simp only [Prod.mk.injEq, Except.ok.injEq] at h
    obtain ⟨h1, h2, h3⟩ := h
    refine ⟨order, hfo, h1.symm, ?_, h3.symm⟩
    subst h2
    unfold findOrder
    rw [find?_map_pres _ _ (fun o => by by_cases ho : o.id == orderId <;> simp [ho])]
    unfold findOrder at hfo
    rw [hfo]
    simp [hid]

/-- Order O9 contains only vendor VB's product P2; VA and VB are vendor
profiles owned by users UA and UB. -/
def c4Db : DB :=
  ⟨[⟨"P2", "VB", "CAT1", "Banana", 10, 5, Status.APPROVED, 0⟩], [],
   [⟨"O9", "CU1", 10, OrderStatus.PENDING, "Pending", "123 Main Street", "0123456789"⟩],
   [⟨"O9", "P2", 1, 10⟩], [],
   [⟨"VA", "UA", Status.APPROVED⟩, ⟨"VB", "UB", Status.APPROVED⟩], []⟩

/-- Vendor A's authenticated user (vendor profile VA). -/
def c4VendorA : AuthUser := ⟨"UA", Role.VENDOR, some "VA"⟩

/-- Witness for C4 at the spec's scenario: VENDOR A calling status-update on
an order containing only VENDOR B's product gets the forbidden error and the
database is unchanged. -/
theorem updateOrderStatus_authorization_witness :
    updateOrderStatus c4Db (some c4VendorA) "O9" OrderStatus.SHIPPED =
      (.error (.forbidden "Forbidden: You can only update orders that contain your products."),
       c4Db, []) :=
  (updateOrderStatus_authorization c4Db (some c4VendorA) "O9" OrderStatus.SHIPPED).2.2.1
    c4VendorA "VA" ⟨"O9", "CU1", 10, OrderStatus.PENDING, "Pending", "123 Main Street", "0123456789"⟩
    rfl rfl rfl (by decide) (by decide)

/-- The admin caller for the C5 witness. -/
def c5Admin : AuthUser := ⟨"AD", Role.ADMIN, none⟩

/-- Witness for C5: an admin shipping order O9 persists the status and emits
exactly one event on the owning customer's channel. -/
theorem updateOrderStatus_notifies_owner_witness :
    ∃ order, findOrder c4Db "O9" = some order ∧
      (⟨"O9", "CU1", 10, OrderStatus.SHIPPED, "Pending", "123 Main Street", "0123456789"⟩ : OrderRow) =
        { order with status := OrderStatus.SHIPPED } ∧
      findOrder
        { c4Db with orders := c4Db.orders.map (fun o => if o.id == "O9" then { o with status := OrderStatus.SHIPPED } else o) }
        "O9" = some { order with status := OrderStatus.SHIPPED } ∧
      ([⟨joinCustomerRoomChannel "CU1",
         .orderStatusUpdate "O9" OrderStatus.SHIPPED "Your order O9 is now SHIPPED."⟩] :
          List Emission) =
        [⟨joinCustomerRoomChannel order.customerId,
          .orderStatusUpdate order.id OrderStatus.SHIPPED
            ("Your order " ++ order.id ++ " is now " ++ OrderStatus.SHIPPED.str ++ ".")⟩] :=
  updateOrderStatus_notifies_owner c4Db (some c5Admin) "O9" OrderStatus.SHIPPED
    ⟨"O9", "CU1", 10, OrderStatus.SHIPPED, "Pending", "123 Main Street", "0123456789"⟩
    { c4Db with orders := c4Db.orders.map (fun o => if o.id == "O9" then { o with status := OrderStatus.SHIPPED } else o) }
    [⟨joinCustomerRoomChannel "CU1",
      .orderStatusUpdate "O9" OrderStatus.SHIPPED "Your order O9 is now SHIPPED."⟩]
    (by decide)

/-! ### Claim C6 -/

/-- Eliminating a successful placeOrder run into its transaction pieces. -/
theorem placeOrder_ok_elim
    (db : DB) (u : AuthUser) (body : PlaceOrderBody) (oid : String) (now : Nat)
    (order : OrderRow) (db' : DB) (ems : List Emission)
    (h : placeOrder db (some u) body oid now = (.ok order, db', ems)) :
    ∃ prep, processCartItems db (cartOf db u.id) OrderPrep.empty = .ok prep ∧
      order = ⟨oid, u.id, prep.totalAmount, OrderStatus.PENDING, "Pending",
               body.shippingAddress, body.contactPhone⟩ ∧
      ems = prep.vendorsInOrder.filterMap
        (fun vid => (findVendorProfile db vid).map
          (fun vp => ⟨joinVendorRoomChannel vp.userId,
            .newOrderNotification oid "You have a new order!" prep.orderItemsData.length⟩)) := by
  simp only [placeOrder] at h
  split at h
  · simp at h
  · split at h
    · simp at h
    · split at h
      · simp at h
      · cases hpr : processCartItems db (cartOf db u.id) OrderPrep.empty with
        | error e => rw [hpr] at h; simp at h
        | ok prep =>
          rw [hpr] at h
          simp only [Prod.mk.injEq, Except.ok.injEq] at h
          obtain ⟨hOrd, hDb, hEms⟩ := h
          exact ⟨prep, rfl, hOrd.symm, hEms.symm⟩

/-- C6: After a successful order placement, exactly one newOrderNotification
is emitted per distinct vendor represented in the order, each addressed to
the channel keyed by that vendor profile's owning user id — the same
`vendor_user_` channel vendor sessions join.  (The hypothesis that every
referenced vendor profile exists is the schema's Product.vendorId foreign
key.) -/
theorem placeOrder_vendor_fanout
    (db : DB) (u : AuthUser) (body : PlaceOrderBody) (oid : String) (now : Nat)
    (order : OrderRow) (db' : DB) (ems : List Emission)
    (h : placeOrder db (some u) body oid now = (.ok order, db', ems))
    (hvp : ∀ v ∈ vendorsOfCart db (cartOf db u.id), ∃ vp, findVendorProfile db v = some vp) :
    (vendorsOfCart db (cartOf db u.id)).Nodup ∧
    (∀ v, v ∈ vendorsOfCart db (cartOf db u.id) ↔
      ∃ l ∈ cartOf db u.id, ∃ p, findProduct db l.productId = some p ∧ p.vendorId = v) ∧
    ems = (vendorsOfCart db (cartOf db u.id)).map
      (fun v => ⟨joinVendorRoomChannel (vendorUserIdOf db v),
        .newOrderNotification oid "You have a new order!" (cartOf db u.id).length⟩) := by
  obtain ⟨prep, hpr, hOrd, hEms⟩ := placeOrder_ok_elim db u body oid now order db' ems h
  obtain ⟨h1, h2, h3, h4, h5⟩ := processCartItems_ok db _ _ _ hpr
  have hvend : prep.vendorsInOrder = vendorsOfCart db (cartOf db u.id) := by
    rw [h4]
    rfl
  have hcount : prep.orderItemsData.length = (cartOf db u.id).length := by
    rw [h1]
    simp [OrderPrep.empty]
  refine ⟨?_, ?_, ?_⟩
  · rw [← hvend, hvend]
    exact nodup_foldl_vendorStep db _ [] List.nodup_nil
  · intro v
    unfold vendorsOfCart
    rw [mem_foldl_vendorStep]
    simp
  · rw [hEms, hvend, hcount]
    apply filterMap_eq_map_of_all
    intro v hv
    obtain ⟨vp, hvp'⟩ := hvp v hv
    rw [hvp']
    unfold vendorUserIdOf
    rw [hvp']
    rfl

/-- Witness for C6 at the spec's scenario: the single-vendor order notifies
exactly channel `vendor_user_U1`, the room vendor V1's session (owning user
U1) joins. -/
theorem placeOrder_vendor_fanout_witness :
    (vendorsOfCart exDb (cartOf exDb exCustomer.id)).Nodup ∧
    (∀ v, v ∈ vendorsOfCart exDb (cartOf exDb exCustomer.id) ↔
      ∃ l ∈ cartOf exDb exCustomer.id, ∃ p, findProduct exDb l.productId = some p ∧
        p.vendorId = v) ∧
    exEms1 = (vendorsOfCart exDb (cartOf exDb exCustomer.id)).map
      (fun v => ⟨joinVendorRoomChannel (vendorUserIdOf exDb v),
        .newOrderNotification "ORD1" "You have a new order!"
          (cartOf exDb exCustomer.id).length⟩) :=
  placeOrder_vendor_fanout exDb exCustomer exBody "ORD1" 0 exOrder1 exDb1 exEms1
    exPlaceOrder_eval
    (by
      intro v hv
      have hlist : vendorsOfCart exDb (cartOf exDb exCustomer.id) = ["V1"] := by decide
      rw [hlist, List.mem_singleton] at hv
      subst hv
      exact ⟨⟨"V1", "U1", Status.APPROVED⟩, by decide⟩)

/-! ### Claim C7 -/

/-- C7: A customer can submit at most one review per product: a first review
is created (appended) with rating in [1,5] only when no (product, customer)
review exists; a second attempt under the same conditions fails with the
duplicate-review rejection (the spec taxonomy's Conflict; HTTP 400 in the
source) and leaves the reviews unchanged; and every addToReview outcome
preserves distinctness of (product, customer) keys. -/
theorem addReview_once_per_product
    (db : DB) (u : AuthUser) (productId : String) (rating : Nat) (comment : Option String)
    (hrole : u.role = Role.CUSTOMER) :
    (∀ r db', addReview db (some u) productId rating comment = (.ok r, db') →
      (1 ≤ rating ∧ rating ≤ 5) ∧ r = ⟨productId, u.id, rating, comment⟩ ∧
      db'.reviews = db.reviews ++ [r] ∧
      ¬∃ r0 ∈ db.reviews, r0.productId = productId ∧ r0.customerId = u.id) ∧
    ((∃ r0 ∈ db.reviews, r0.productId = productId ∧ r0.customerId = u.id) →
      ∀ p, findProduct db productId = some p → p.status = Status.APPROVED →
        1 ≤ rating → rating ≤ 5 →
        addReview db (some u) productId rating comment = (.error .alreadyReviewed, db)) ∧
    (∀ res db', addReview db (some u) productId rating comment = (res, db') →
      (db.reviews.map (fun r => (r.productId, r.customerId))).Nodup →
      (db'.reviews.map (fun r => (r.productId, r.customerId))).Nodup) := by
  refine ⟨?_, ?_, ?_⟩
  · intro r db' h
    simp only [addReview] at h
    rw [if_neg (not_not_intro hrole)] at h
    split at h
    · simp at h
    · cases hfp : findProduct db productId with
      | none => simp only [hfp] at h; simp at h
      | some p =>
        simp only [hfp] at h
        split at h
        · simp at h
        · split at h
          · simp at h
          · rename_i hrange _ hdup
            push_neg at hrange
            simp only [Prod.mk.injEq, Except.ok.injEq] at h
            obtain ⟨hr, hdb⟩ := h
            refine ⟨⟨Nat.one_le_iff_ne_zero.mpr ?_, ?_⟩, hr.symm, ?_, ?_⟩
            · have := hrange.1
              omega
            · have := hrange.2
              omega
            · rw [← hdb, ← hr]
            · intro ⟨r0, hr0, hp0, hc0⟩
              apply hdup
              simp only [List.any_eq_true]
              exact ⟨r0, hr0, by simp [hp0, hc0]⟩
  · intro hdup p hfp hst h1 h5
    obtain ⟨r0, hr0, hp0, hc0⟩ := hdup
    simp only [addReview]
    rw [if_neg (not_not_intro hrole)]
    rw [if_neg (by push_neg; exact ⟨h1, h5⟩)]
    simp only [hfp]
    rw [if_neg (not_not_intro hst)]
    rw [if_pos (List.any_eq_true.mpr ⟨r0, hr0, by simp [hp0, hc0]⟩)]
  · intro res db' h hnd
    simp only [addReview] at h
    rw [if_neg (not_not_intro hrole)] at h
    split at h
    · obtain ⟨_, hdb⟩ := Prod.mk.injEq .. ▸ h
      rw [← hdb]
      exact hnd
    · cases hfp : findProduct db productId with
      | none =>
        simp only [hfp] at h
        obtain ⟨_, hdb⟩ := Prod.mk.injEq .. ▸ h
        rw [← hdb]
        exact hnd
      | some p =>
        simp only [hfp] at h
        split at h
        · obtain ⟨_, hdb⟩ := Prod.mk.injEq .. ▸ h
          rw [← hdb]
          exact hnd
        · split at h
          · obtain ⟨_, hdb⟩ := Prod.mk.injEq .. ▸ h
            rw [← hdb]
            exact hnd
          · rename_i hdup
            obtain ⟨_, hdb⟩ := Prod.mk.injEq .. ▸ h
            rw [← hdb]
            simp only [List.map_append]
            refine List.Nodup.append hnd (List.nodup_singleton _) ?_
            intro a ha hb
            simp only [List.map_cons, List.map_nil, List.mem_singleton] at hb
            subst hb
            obtain ⟨r0, hr0, hkey⟩ := List.mem_map.mp ha
            apply hdup
            simp only [List.any_eq_true]
            refine ⟨r0, hr0, ?_⟩
            have h1 : r0.productId = productId := congrArg Prod.fst hkey
            have h2 : r0.customerId = u.id := congrArg Prod.snd hkey
            simp [h1, h2]

/-- Database for the C7 witness: P1 APPROVED, CU1 already reviewed P1. -/
def c7Db : DB :=
  ⟨[⟨"P1", "V1", "CAT1", "Apple", 10, 5, Status.APPROVED, 0⟩], [], [], [], [],
   [⟨"V1", "U1", Status.APPROVED⟩], [⟨"P1", "CU1", 4, none⟩]⟩

/-- Witness for C7: CU1's second review of P1 is rejected as a duplicate and
the stored reviews are unchanged. -/
theorem addReview_once_per_product_witness :
    addReview c7Db (some exCustomer) "P1" 5 none = (.error .alreadyReviewed, c7Db) :=
  (addReview_once_per_product c7Db exCustomer "P1" 5 none rfl).2.1
    ⟨⟨"P1", "CU1", 4, none⟩, by decide, rfl, rfl⟩
    ⟨"P1", "V1", "CAT1", "Apple", 10, 5, Status.APPROVED, 0⟩
    (by decide) rfl (by decide) (by decide)

/-! ### Claim C8 -/

/-- C8: The product listing never returns a product whose status is not
APPROVED (the handler takes no caller identity at all, so in particular this
holds for unauthenticated and customer callers), and fetching an absent or
non-APPROVED product by id fails with the same NotFound error — never a
Forbidden one — making non-approved products indistinguishable from absent
ones. -/
theorem products_visibility
    (db : DB) (q : ProductsQuery) (id : String) :
    (∀ p ∈ (getProducts db q).1, p.status = Status.APPROVED) ∧
    (findProduct db id = none →
      getProductById db id = .error (.notFound "Product not found or not available.")) ∧
    (∀ p, findProduct db id = some p → p.status ≠ Status.APPROVED →
      getProductById db id = .error (.notFound "Product not found or not available.")) ∧
    (∀ m, getProductById db id ≠ .error (.forbidden m)) := by
  refine ⟨?_, ?_, ?_, ?_⟩
  · intro p hp
    simp only [getProducts] at hp
    have hmem : p ∈ db.products.filter (matchesWhere q) := by
      rcases hsb : q.sortBy with _ | k <;>
        · rw [hsb] at hp
          exact List.mem_mergeSort.mp
            (List.mem_of_mem_drop (List.mem_of_mem_take hp))
    have hw : matchesWhere q p = true := (List.mem_filter.mp hmem).2
    unfold matchesWhere at hw
    simp only [Bool.and_eq_true, beq_iff_eq] at hw
    exact hw.1.1.1.1
  · intro hnone
    simp only [getProductById, hnone]
  · intro p hfp hst
    simp only [getProductById, hfp]
    rw [if_pos hst]
  · intro m hcontra
    simp only [getProductById] at hcontra
    cases hfp : findProduct db id with
    | none => simp only [hfp] at hcontra; simp at hcontra
    | some p =>
      simp only [hfp] at hcontra
      split at hcontra <;> simp at hcontra

/-- Catalog for the C8 witness: P1 APPROVED, P3 PENDING. -/
def c8Db : DB :=
  ⟨[⟨"P1", "V1", "CAT1", "Apple", 10, 5, Status.APPROVED, 0⟩,
    ⟨"P3", "V1", "CAT1", "Pear", 7, 2, Status.PENDING, 0⟩],
   [], [], [], [], [⟨"V1", "U1", Status.APPROVED⟩], []⟩

/-- The default product listing query (page 1, limit 10, no filters). -/
def c8Query : ProductsQuery := ⟨none, none, none, none, none, true, 1, 10⟩

/-- Witness for C8: an absent id and the PENDING product P3 produce the same
NotFound error. -/
theorem products_visibility_witness :
    getProductById c8Db "NOPE" = .error (.notFound "Product not found or not available.") ∧
    getProductById c8Db "P3" = .error (.notFound "Product not found or not available.") :=
  ⟨(products_visibility c8Db c8Query "NOPE").2.1 (by decide),
   (products_visibility c8Db c8Query "P3").2.2.1
     ⟨"P3", "V1", "CAT1", "Pear", 7, 2, Status.PENDING, 0⟩ (by decide) (by decide)⟩

/-! ### Claim C9 -/

/-- C9: A customer's cart read performs no writes (the returned database is
the input database), every returned line's quantity is the minimum of the
stored quantity and the product's current stock with the product APPROVED,
and stored lines whose product is missing or not APPROVED contribute no
returned line. -/
theorem getCart_read_normalization
    (db : DB) (u : AuthUser) (hrole : u.role = Role.CUSTOMER) :
    ∀ res db2, getCart db (some u) = (res, db2) →
      db2 = db ∧
      ∀ views, res = .ok views →
        (∀ v ∈ views,
          (∃ l ∈ cartOf db u.id, v.productId = l.productId ∧
            v.quantity = min l.quantity v.product.stock) ∧
          findProduct db v.productId = some v.product ∧
          v.product.status = Status.APPROVED) ∧
        (∀ l ∈ cartOf db u.id,
          (findProduct db l.productId = none ∨
           (∃ p, findProduct db l.productId = some p ∧ p.status ≠ Status.APPROVED)) →
          ∀ v ∈ views, v.productId ≠ l.productId) := by
  intro res db2 h
  simp only [getCart] at h
  rw [if_neg (not_not_intro hrole)] at h
  simp only [Prod.mk.injEq] at h
  obtain ⟨hres, hdb⟩ := h
  refine ⟨hdb.symm, ?_⟩
  intro views hviews
  rw [← hres] at hviews
  simp only [Except.ok.injEq] at hviews
  have hchar : ∀ v ∈ views,
      (∃ l ∈ cartOf db u.id, v.productId = l.productId ∧
        v.quantity = min l.quantity v.product.stock) ∧
      findProduct db v.productId = some v.product ∧
      v.product.status = Status.APPROVED := by
    intro v hv
    rw [← hviews] at hv
    obtain ⟨item, hitem, hf⟩ := List.mem_filterMap.mp hv
    cases hfp : findProduct db item.productId with
    | none => simp only [hfp] at hf; exact Option.noConfusion hf
    | some p =>
      simp only [hfp] at hf
      split at hf
      · rename_i hst
        simp only [Option.some.injEq] at hf
        subst hf
        exact ⟨⟨item, hitem, rfl, rfl⟩, hfp, hst⟩
      · exact Option.noConfusion hf
  refine ⟨hchar, ?_⟩
  intro l hl hbad v hv heq
  obtain ⟨_, hfv, hstv⟩ := hchar v hv
  rw [heq] at hfv
  rcases hbad with hnone | ⟨p, hp, hst⟩
  · rw [hnone] at hfv
    exact Option.noConfusion hfv
  · rw [hp] at hfv
    simp only [Option.some.injEq] at hfv
    exact hst (hfv ▸ hstv)

/-- Cart store for the C9 witness: P1 APPROVED with stock 2 but stored
quantity 5 (capped to 2 on read), P2 PENDING (omitted on read). -/
def c9Db : DB :=
  ⟨[⟨"P1", "V1", "CAT1", "Apple", 10, 2, Status.APPROVED, 0⟩,
    ⟨"P2", "V1", "CAT1", "Plum", 4, 9, Status.PENDING, 0⟩],
   [⟨"CU1", "P1", 5⟩, ⟨"CU1", "P2", 1⟩], [], [], [],
   [⟨"V1", "U1", Status.APPROVED⟩], []⟩

/-- Witness for C9: reading CU1's cart writes nothing, caps P1's quantity to
stock 2, and omits the PENDING product P2. -/
theorem getCart_read_normalization_witness :
    c9Db = c9Db ∧
    ∀ views,
      (.ok [⟨"CU1", "P1", 2, ⟨"P1", "V1", "CAT1", "Apple", 10, 2, Status.APPROVED, 0⟩⟩] :
        Except ApiError (List CartViewItem)) = .ok views →
      (∀ v ∈ views,
        (∃ l ∈ cartOf c9Db exCustomer.id, v.productId = l.productId ∧
          v.quantity = min l.quantity v.product.stock) ∧
        findProduct c9Db v.productId = some v.product ∧
        v.product.status = Status.APPROVED) ∧
      (∀ l ∈ cartOf c9Db exCustomer.id,
        (findProduct c9Db l.productId = none ∨
         (∃ p, findProduct c9Db l.productId = some p ∧ p.status ≠ Status.APPROVED)) →
        ∀ v ∈ views, v.productId ≠ l.productId) :=
  getCart_read_normalization c9Db exCustomer rfl
    (.ok [⟨"CU1", "P1", 2, ⟨"P1", "V1", "CAT1", "Apple", 10, 2, Status.APPROVED, 0⟩⟩])
    c9Db (by decide)

/-! ### Claim C10 -/

/-- Product and store for the C10 scenario (stock 5, APPROVED, empty cart). -/
def c10P1 : Product := ⟨"P1", "V1", "CAT1", "Apple", 10, 5, Status.APPROVED, 0⟩

/-- Initial database of the C10 scenario. -/
def c10Db : DB := ⟨[c10P1], [], [], [], [], [⟨"V1", "U1", Status.APPROVED⟩], []⟩

/-- C10: Adding a product that already has a cart line increments the stored
quantity by the requested amount (it does not replace it), the stock check
compares only the newly requested quantity against current stock, and hence
a sequence of add-to-cart calls can leave the stored quantity above the
product's stock: two adds of 3 against stock 5 leave a stored line of 6. -/
theorem addToCart_increment_semantics
    (db : DB) (u : AuthUser) (pid : String) (q : Nat)
    (hrole : u.role = Role.CUSTOMER) (hq1 : 1 ≤ q) :
    (∀ line p, db.carts.find? (fun l => l.customerId == u.id && l.productId == pid) = some line →
      findProduct db pid = some p → p.status = Status.APPROVED → q ≤ p.stock →
      ∃ db', addToCart db (some u) pid q =
          (.ok { line with quantity := line.quantity + q }, db') ∧
        db'.carts.find? (fun l => l.customerId == u.id && l.productId == pid) =
          some { line with quantity := line.quantity + q } ∧
        db'.products = db.products) ∧
    ((addToCart (addToCart c10Db (some exCustomer) "P1" 3).2 (some exCustomer) "P1" 3).2.carts =
        [⟨"CU1", "P1", 6⟩] ∧
      findProduct (addToCart (addToCart c10Db (some exCustomer) "P1" 3).2
          (some exCustomer) "P1" 3).2 "P1" = some c10P1 ∧
      c10P1.stock < 6) := by
  constructor
  · intro line p hline hfp hst hqs
    simp only [addToCart]
    rw [if_neg (not_not_intro hrole), if_neg (Nat.not_lt.mpr hq1)]
    simp only [hfp]
    rw [if_neg (not_not_intro hst), if_neg (Nat.not_lt.mpr hqs)]
    simp only [hline]
    refine ⟨_, rfl, ?_, rfl⟩
    rw [find?_map_pres _ _ (fun l => by
      by_cases hc : (l.customerId == u.id && l.productId == pid) = true <;> simp [hc])]
    have hpred := List.find?_some hline
    rw [hline, Option.map_some']
    simp only [hpred]
    simp
  · refine ⟨by decide, by decide, by decide⟩

/-- Store for the C10 witness: CU1 already has 3 × P1 in the cart. -/
def c10wDb : DB := ⟨[c10P1], [⟨"CU1", "P1", 3⟩], [], [], [], [⟨"V1", "U1", Status.APPROVED⟩], []⟩

/-- Witness for C10: adding 3 more of P1 (stock 5) to an existing line of 3
succeeds and stores quantity 6, and the two-add sequence from an empty cart
exceeds stock. -/
theorem addToCart_increment_semantics_witness :
    (∀ line p,
      c10wDb.carts.find? (fun l => l.customerId == exCustomer.id && l.productId == "P1") =
        some line →
      findProduct c10wDb "P1" = some p → p.status = Status.APPROVED → 3 ≤ p.stock →
      ∃ db', addToCart c10wDb (some exCustomer) "P1" 3 =
          (.ok { line with quantity := line.quantity + 3 }, db') ∧
        db'.carts.find? (fun l => l.customerId == exCustomer.id && l.productId == "P1") =
          some { line with quantity := line.quantity + 3 } ∧
        db'.products = c10wDb.products) ∧
    ((addToCart (addToCart c10Db (some exCustomer) "P1" 3).2 (some exCustomer) "P1" 3).2.carts =
        [⟨"CU1", "P1", 6⟩] ∧
      findProduct (addToCart (addToCart c10Db (some exCustomer) "P1" 3).2
          (some exCustomer) "P1" 3).2 "P1" = some c10P1 ∧
      c10P1.stock < 6) :=
  addToCart_increment_semantics c10wDb exCustomer "P1" 3 rfl (by decide)

end FreshMart
